import Mathlib

/-!
Shallow embedding of the IPP ink-level client (`src/ipp_client.py`).

Python strings are represented by their UTF-8 byte sequences (`List Nat`,
one entry per byte); this is a bijective representation, and all string
operations of the source (splitting on a comma byte, ASCII lowercasing of
the fixed color keys, prefix tests on scheme text) act on bytes exactly as
they act on the corresponding Python strings.  `bytes` values are also
`List Nat`.  Python exceptions are modelled with `Except Unit` / `Option`:
a `try`/`except` of the source becomes an explicit `match` on the modelled
body's outcome.

Buffer reads mirror Python slicing: `buf[pos:pos+n]` is `(buf.drop pos).take n`
and is silently short when fewer than `n` bytes remain, while
`struct.unpack` of a fixed-width format raises (here: `none`) when the
slice is shorter than the format.
-/

set_option maxRecDepth 8000

/-- Byte sequence of an ASCII string literal (all literals passed here are
ASCII, so the code point equals the UTF-8 byte). -/
def strB (s : String) : List Nat :=
  s.data.map Char.toNat

/-- Model of `struct.unpack('!H', r[0:2])[0]`: big-endian 16-bit read from the
front of the remaining buffer; `none` models the `struct.error` raised when
fewer than 2 bytes remain. -/
def unpackH : List Nat → Option Nat
  | a :: b :: _ => some (a * 256 + b)
  | _ => none

/-- Model of `struct.unpack('!I', r[0:4])[0]`: big-endian 32-bit read;
`none` models `struct.error` on a short buffer. -/
def unpackI : List Nat → Option Nat
  | a :: b :: c :: d :: _ => some (((a * 256 + b) * 256 + c) * 256 + d)
  | _ => none

/-- Big-endian 2-byte encoding used by `struct.pack('!H', n)` for `n < 65536`. -/
def pack16 (n : Nat) : List Nat :=
  [n / 256 % 256, n % 256]

/-- Model of `struct.pack('!H', n)`: `none` models the `struct.error` raised
for values that do not fit in 16 bits. -/
def packH (n : Nat) : Option (List Nat) :=
  if n < 65536 then some (pack16 n) else none

/-- Whether a byte is a UTF-8 continuation byte (`0x80..0xBF`). -/
def contB (c : Nat) : Bool :=
  128 ≤ c && c < 192

/-- Strict UTF-8 validity, as checked by Python's `bytes.decode('utf-8')`:
rejects stray continuation bytes, overlong encodings, surrogates and code
points above `U+10FFFF`.  A text value of the source decodes successfully
exactly when this holds of its bytes (the decoded string is then represented
by the same byte list). -/
def utf8Valid : List Nat → Bool
  | [] => true
  | b :: rest =>
    if b < 128 then utf8Valid rest
    else if b < 194 then false
    else if b < 224 then
      match rest with
      | c1 :: r => contB c1 && utf8Valid r
      | [] => false
    else if b < 240 then
      match rest with
      | c1 :: c2 :: r =>
        contB c1 && contB c2 &&
          (if b = 224 then decide (160 ≤ c1) else true) &&
          (if b = 237 then decide (c1 < 160) else true) && utf8Valid r
      | _ => false
    else if b < 245 then
      match rest with
      | c1 :: c2 :: c3 :: r =>
        contB c1 && contB c2 && contB c3 &&
          (if b = 240 then decide (144 ≤ c1) else true) &&
          (if b = 244 then decide (c1 < 144) else true) && utf8Valid r
      | _ => false
    else false

/-- Value stored in the decoded attribute dictionary: a decoded text
(`str`, as UTF-8 bytes), an integer (from an enum), or raw `bytes`
(from an octetString). -/
inductive PyVal where
  | s (v : List Nat)
  | i (v : Nat)
  | b (v : List Nat)
deriving DecidableEq

/-- Insertion-ordered dictionary from attribute name (UTF-8 bytes) to value,
modelling the Python `dict` built by `_parse_ipp_response`. -/
abbrev Dict : Type :=
  List (List Nat × PyVal)

/-- Model of `attributes[name] = value`: overwrite in place if the key is
present, else append (Python dicts preserve first-insertion order). -/
def dictInsert (d : Dict) (k : List Nat) (v : PyVal) : Dict :=
  if d.any (fun p => decide (p.1 = k)) then
    d.map (fun p => if p.1 = k then (k, v) else p)
  else d ++ [(k, v)]

/-- Model of `attributes.get(name)`. -/
def dictGet (d : Dict) (k : List Nat) : Option PyVal :=
  (d.find? (fun p => decide (p.1 = k))).map (fun p => p.2)

/-- One step of the nested `while` loops of `IPPClient._parse_ipp_response`.
`rest` is the unread suffix of the buffer (`ipp_response[pos:]`); `atGroup`
is `true` when the next byte would be read by the outer loop as a group tag
and `false` inside the inner attribute loop; `attrs` is the dictionary built
so far; `lastVal` is the current value of the Python local `value` (`none`
while it is still unassigned — using it then raises `UnboundLocalError`,
modelled as `.error ()`, which the unknown-tag fall-through can hit).
`fuel` only bounds the recursion; every iteration consumes at least one
byte, so the wrapper's `buf.length + 1` never runs out. -/
def parseStep : Nat → List Nat → Bool → Dict → Option PyVal → Except Unit Dict
  | 0, _, _, attrs, _ => .ok attrs
  | _ + 1, [], _, attrs, _ => .ok attrs
  | f + 1, b :: rest, true, attrs, lastVal =>
    if b = 3 then .ok attrs
    else parseStep f rest false attrs lastVal
  | f + 1, b :: rest, false, attrs, lastVal =>
    if b = 3 then parseStep f rest true attrs lastVal
    else
      match unpackH rest with
      | none => .error ()
      | some nameLen =>
        let r2 := rest.drop 2
        let nameB := r2.take nameLen
        if utf8Valid nameB then
          let r3 := r2.drop nameLen
          if b = 33 ∨ b = 35 ∨ b = 68 then
            -- 0x21 textWithoutLanguage / 0x23 nameWithoutLanguage / 0x44 keyword
            match unpackH r3 with
            | none => .error ()
            | some valueLen =>
              let r4 := r3.drop 2
              let valB := r4.take valueLen
              if utf8Valid valB then
                parseStep f (r4.drop valueLen) false
                  (dictInsert attrs nameB (PyVal.s valB)) (some (PyVal.s valB))
              else .error ()
          else if b = 53 then
            -- 0x35 enum: length field read and discarded, value always 4 bytes
            match unpackH r3 with
            | none => .error ()
            | some _ =>
              match unpackI (r3.drop 2) with
              | none => .error ()
              | some v =>
                parseStep f ((r3.drop 2).drop 4) false
                  (dictInsert attrs nameB (PyVal.i v)) (some (PyVal.i v))
          else if b = 34 then
            -- 0x22 octetString: raw bytes, no text decode
            match unpackH r3 with
            | none => .error ()
            | some valueLen =>
              let r4 := r3.drop 2
              let valB := r4.take valueLen
              parseStep f (r4.drop valueLen) false
                (dictInsert attrs nameB (PyVal.b valB)) (some (PyVal.b valB))
          else
            -- unknown tag: skip the length-prefixed payload; the source then
            -- still executes `attributes[name] = value` with the stale `value`
            match unpackH r3 with
            | none => .error ()
            | some valueLen =>
              match lastVal with
              | none => .error ()
              | some v =>
                parseStep f ((r3.drop 2).drop valueLen) false
                  (dictInsert attrs nameB v) lastVal
        else .error ()

/-- Body of `_parse_ipp_response` before its blanket `except`: skip the
8-byte preamble and run the nested loops from `pos = 8`. -/
def parse_body (ipp_response : List Nat) : Except Unit Dict :=
  parseStep (ipp_response.length + 1) (ipp_response.drop 8) true [] none

/-- Model of `IPPClient._parse_ipp_response`: any exception during the parse is caught
and turned into the empty dictionary. -/
def parse_ipp_response (ipp_response : List Nat) : Dict :=
  match parse_body ipp_response with
  | .ok d => d
  | .error _ => []

/-- Literal `b'\x47\x00\x12attributes-charset\x00utf-8'` of the source. -/
def charsetB : List Nat :=
  [71, 0, 18] ++ strB ("attributes-charset") ++ [0] ++ strB ("utf-8")

/-- Literal `b'\x48\x00\x1battributes-natural-language\x00en-us'`. -/
def languageB : List Nat :=
  [72, 0, 27] ++ strB ("attributes-natural-language") ++ [0] ++ strB ("en-us")

/-- Literal requested-attributes attribute bytes of the source:
`b'\x44\x00\x14requested-attributes\x00' + b'\x00\x14marker-...'`. -/
def requestedB : List Nat :=
  [68, 0, 20] ++ strB ("requested-attributes") ++ [0] ++ [0, 20] ++
    strB ("marker-colors,marker-levels,marker-names,marker-types")

/-- Model of `IPPClient._build_ipp_request`: assembles the request bytes.  `none`
models the `struct.error` escaping when a length does not fit 16 bits.
The printer-uri value is `f'uri:{self.printer_url}'`, i.e. the URL with the
literal text `uri:` prepended. -/
def build_ipp_request (operation_id : Nat) (printer_url : List Nat) :
    Option (List Nat) :=
  match packH operation_id with
  | none => none
  | some opid =>
    let uri := strB ("uri:") ++ printer_url
    match packH uri.length with
    | none => none
    | some uriLen =>
      some ([2, 1] ++ opid ++ [0, 0, 0, 1] ++ [1] ++ charsetB ++ languageB ++
        ([69, 0, 11] ++ strB ("printer-uri") ++ [0] ++ uriLen ++ uri) ++
        requestedB ++ [3])

/-- Left-to-right, non-overlapping replacement pass of `str.replace` for a
non-empty pattern.  The fuel only bounds recursion: each step consumes at
least one character, so the `s.length + 1` supplied by `pyReplace` never
runs out. -/
def replGo (old new : List Nat) : Nat → List Nat → List Nat
  | 0, s => s
  | f + 1, s =>
    if old ≠ [] ∧ old.isPrefixOf s = true then
      new ++ replGo old new f (s.drop old.length)
    else
      match s with
      | [] => []
      | c :: t => c :: replGo old new f t

/-- Model of Python `str.replace(old, new)` (all occurrences; for the empty
pattern CPython inserts `new` before every character and at the end). -/
def pyReplace (s old new : List Nat) : List Nat :=
  if old = [] then new ++ s.flatMap (fun c => c :: new)
  else replGo old new (s.length + 1) s

/-- URL derivation of `IPPClient.get_printer_attributes`: rewrite an
`ipp://` or `ipps://` scheme to `http://`/`https://` via `str.replace`,
otherwise prepend the literal text `http://`. -/
def deriveUrl (printer_url : List Nat) : List Nat :=
  if (strB ("ipp://")).isPrefixOf printer_url then
    pyReplace printer_url (strB ("ipp://")) (strB ("http://"))
  else if (strB ("ipps://")).isPrefixOf printer_url then
    pyReplace printer_url (strB ("ipps://")) (strB ("https://"))
  else strB ("http://") ++ printer_url

/-- Split a string (as UTF-8 bytes) on the comma byte, keeping empty pieces:
Python `str.split(',')`.  In particular splitting the empty string yields a
single empty token, never the empty list. -/
def splitComma : List Nat → List (List Nat)
  | [] => [[]]
  | b :: rest =>
    match splitComma rest with
    | [] => [[]]
    | h :: t => if b = 44 then [] :: h :: t else (b :: h) :: t

/-- ASCII lowercasing, `str.lower()` restricted to the ASCII range (every
key of the source's color table and every scheme literal is ASCII). -/
def lowerB (s : List Nat) : List Nat :=
  s.map (fun c => if 65 ≤ c ∧ c ≤ 90 then c + 32 else c)

/-- Whether a byte is ASCII whitespace, as stripped by `str.strip()` and
`int(...)`. -/
def isSpaceB (c : Nat) : Bool :=
  c = 32 || (9 ≤ c && c ≤ 13)

/-- Python `str.strip()` (ASCII whitespace). -/
def stripB (s : List Nat) : List Nat :=
  ((s.dropWhile isSpaceB).reverse.dropWhile isSpaceB).reverse

/-- Whether a byte is an ASCII digit. -/
def isDigitB (c : Nat) : Bool :=
  48 ≤ c && c ≤ 57

/-- Numeric value of a string of ASCII digits. -/
def digitsVal (l : List Nat) : Nat :=
  l.foldl (fun a c => a * 10 + (c - 48)) 0

/-- Model of Python `int(s)` on a decimal numeral: strip whitespace, allow
one sign, then require at least one ASCII digit; `none` models the
`ValueError` raised otherwise (e.g. by `int('')`). -/
def pyInt (s : List Nat) : Option Int :=
  match stripB s with
  | [] => none
  | c :: rest =>
    if c = 43 then
      if rest ≠ [] ∧ rest.all isDigitB then some (Int.ofNat (digitsVal rest))
      else none
    else if c = 45 then
      if rest ≠ [] ∧ rest.all isDigitB then some (-(Int.ofNat (digitsVal rest)))
      else none
    else if (c :: rest).all isDigitB then some (Int.ofNat (digitsVal (c :: rest)))
    else none

/-- The clamp `max(0, min(100, level))` of `get_ink_levels`. -/
def clampLevel (n : Int) : Int :=
  max 0 (min 100 n)

/-- Status string `'空'` (empty), UTF-8 bytes. -/
def statusEmpty : List Nat :=
  [231, 169, 186]

/-- Status string `'警告'` (warning), UTF-8 bytes. -/
def statusWarning : List Nat :=
  [232, 173, 166, 229, 145, 138]

/-- Status string `'正常'` (ok/normal), UTF-8 bytes. -/
def statusOk : List Nat :=
  [230, 173, 163, 229, 184, 184]

/-- The status classification of `get_ink_levels`, a pure function of the
clamped level. -/
def statusOf (level : Int) : List Nat :=
  if level < 10 then statusEmpty
  else if level < 20 then statusWarning
  else statusOk

/-- The `color_map` of `IPPClient._get_color_name` (values are the UTF-8
bytes of the Chinese display names of the source). -/
def colorMap : List (List Nat × List Nat) :=
  [ (strB ("black"), [233, 187, 145, 232, 137, 178]),
    (strB ("cyan"), [233, 157, 146, 232, 137, 178]),
    (strB ("magenta"), [229, 147, 129, 231, 186, 162, 232, 137, 178]),
    (strB ("yellow"), [233, 187, 132, 232, 137, 178]),
    (strB ("photo-black"), [231, 133, 167, 231, 137, 135, 233, 187, 145]),
    (strB ("gray"), [231, 129, 176, 232, 137, 178]),
    (strB ("photo-gray"), [231, 133, 167, 231, 137, 135, 231, 129, 176]),
    (strB ("light-cyan"), [230, 181, 133, 233, 157, 146, 232, 137, 178]),
    (strB ("light-magenta"),
      [230, 181, 133, 229, 147, 129, 231, 186, 162, 232, 137, 178]) ]

/-- Model of `IPPClient._get_color_name`: `color_map.get(color.lower(), color)` —
look up the lowercased token, fall back to the raw token unchanged. -/
def get_color_name (color : List Nat) : List Nat :=
  match colorMap.find? (fun p => decide (p.1 = lowerB color)) with
  | some p => p.2
  | none => color

/-- A marker attribute value after the `isinstance` normalization of
`get_ink_levels`: a `str` was split on commas into a list of strings; a
`bytes` value stays as is (indexing it yields integers); an `int` (from an
enum attribute) stays as is and makes `len(...)` raise `TypeError`. -/
inductive SeqVal where
  | strs (l : List (List Nat))
  | ints (bs : List Nat)
  | notSeq (n : Nat)
deriving DecidableEq

/-- The `attributes.get(name, '')` plus `isinstance` normalization applied
to each marker attribute (the `isinstance(..., list)` branch of the source
is dead: the decoder never produces Python lists). -/
def normalizeVal (v : Option PyVal) : SeqVal :=
  match v.getD (PyVal.s []) with
  | PyVal.s s => SeqVal.strs (splitComma s)
  | PyVal.b bs => SeqVal.ints bs
  | PyVal.i n => SeqVal.notSeq n

/-- An element obtained by indexing a normalized marker sequence: a string
token or an integer (from indexing `bytes`). -/
inductive Tok where
  | s (v : List Nat)
  | i (v : Nat)
deriving DecidableEq

/-- Model of `len(...)` on a normalized marker value; `none` models the
`TypeError` raised when the value is an `int`. -/
def seqLen : SeqVal → Option Nat
  | SeqVal.strs l => some l.length
  | SeqVal.ints bs => some bs.length
  | SeqVal.notSeq _ => none

/-- In-bounds indexing of a normalized marker value (all uses of the source
are guarded by a length test, so no `IndexError` can occur here). -/
def seqIdx : SeqVal → Nat → Tok
  | SeqVal.strs l, i => Tok.s (l.getD i [])
  | SeqVal.ints bs, i => Tok.i (bs.getD i 0)
  | SeqVal.notSeq _, _ => Tok.s []

/-- Model of `int(marker_levels[i])`: parsing a string token may raise
`ValueError` (`none`); indexing `bytes` yields an integer, and `int` of an
integer is itself. -/
def levelTok : SeqVal → Nat → Option Int
  | SeqVal.strs l, i => pyInt (l.getD i [])
  | SeqVal.ints bs, i => some (Int.ofNat (bs.getD i 0))
  | SeqVal.notSeq _, _ => none

/-- One cartridge record of `get_ink_levels` (the `name`/`type` keys are
only present when the corresponding marker list is long enough). -/
structure Cartridge where
  color : List Nat
  color_name : List Nat
  level : Int
  status : List Nat
  name : Option Tok
  type : Option Tok
deriving DecidableEq

/-- Outcome of one iteration of the cartridge loop: an uncaught exception
(`TypeError`/`AttributeError`, aborting `get_ink_levels` to its outer
`except`), a caught `ValueError` (the entry is skipped), or a record. -/
inductive StepRes where
  | fatal
  | skip
  | ok (c : Cartridge)

/-- Body of iteration `i` of the `for i in range(len(marker_colors))` loop
of `get_ink_levels`, in the source's evaluation order: `len(marker_levels)`
(may raise `TypeError`), `int(marker_levels[i])` (a `ValueError` here is
caught and skips the entry), clamp, status, the color token's string
methods (an integer from a `bytes` color sequence raises
`AttributeError`), then `len(marker_names)` / `len(marker_types)`. -/
def inkStep (ml mn mt : SeqVal) (colorTok : Tok) (i : Nat) : StepRes :=
  match seqLen ml with
  | none => StepRes.fatal
  | some lml =>
    match (if i < lml then levelTok ml i else some 0) with
    | none => StepRes.skip
    | some lv =>
      let level := clampLevel lv
      match colorTok with
      | Tok.i _ => StepRes.fatal
      | Tok.s col =>
        match seqLen mn with
        | none => StepRes.fatal
        | some lmn =>
          match seqLen mt with
          | none => StepRes.fatal
          | some lmt =>
            StepRes.ok
              { color := stripB (lowerB col)
                color_name := get_color_name col
                level := level
                status := statusOf level
                name := if i < lmn then some (seqIdx mn i) else none
                type := if i < lmt then some (seqIdx mt i) else none }

/-- The cartridge loop of `get_ink_levels`; `none` models an exception that
escapes to the function's outer `except`. -/
def inkLoop (ml mn mt : SeqVal) :
    List Tok → Nat → List Cartridge → Option (List Cartridge)
  | [], _, acc => some acc
  | t :: rest, i, acc =>
    match inkStep ml mn mt t i with
    | StepRes.fatal => none
    | StepRes.skip => inkLoop ml mn mt rest (i + 1) acc
    | StepRes.ok c => inkLoop ml mn mt rest (i + 1) (acc ++ [c])

/-- The token list iterated by the loop (`marker_colors` after
normalization); `none` models the `TypeError` of `len(...)` on an `int`. -/
def seqToks : SeqVal → Option (List Tok)
  | SeqVal.strs l => some (l.map Tok.s)
  | SeqVal.ints bs => some (bs.map Tok.i)
  | SeqVal.notSeq _ => none

/-- Body of `IPPClient.get_ink_levels` after the printer attributes have
been fetched, before the outer `except`: `.error ()` is an exception
reaching that `except`. -/
def get_ink_levels_try (attributes : Dict) : Except Unit (List Cartridge) :=
  if attributes = [] then .ok []
  else
    let mc := normalizeVal (dictGet attributes (strB ("marker-colors")))
    let ml := normalizeVal (dictGet attributes (strB ("marker-levels")))
    let mn := normalizeVal (dictGet attributes (strB ("marker-names")))
    let mt := normalizeVal (dictGet attributes (strB ("marker-types")))
    match seqToks mc with
    | none => .error ()
    | some toks =>
      match inkLoop ml mn mt toks 0 [] with
      | none => .error ()
      | some cs => .ok cs

/-- The extraction part of `get_ink_levels` with its outer `except`
applied: any escaping exception yields the empty list. -/
def get_ink_levels_core (attributes : Dict) : List Cartridge :=
  match get_ink_levels_try attributes with
  | .ok cs => cs
  | .error _ => []

/-- Outcome of the one `requests.post` call: `exc` models any transport
exception (DNS failure, connection refusal, timeout, ...), otherwise an
HTTP status code and the raw response body. -/
inductive HttpOutcome where
  | exc
  | resp (status : Nat) (body : List Nat)

/-- Body of `IPPClient.get_printer_attributes` before its blanket `except`.
The network is abstracted as `post url request timeout`. -/
def get_printer_attributes_try (post : List Nat → List Nat → Nat → HttpOutcome)
    (printer_url : List Nat) (timeout : Nat) : Except Unit Dict :=
  let url := deriveUrl printer_url
  match build_ipp_request 11 printer_url with
  | none => .error ()
  | some req =>
    match post url req timeout with
    | HttpOutcome.exc => .error ()
    | HttpOutcome.resp status body =>
      if status = 200 then .ok (parse_ipp_response body) else .ok []

/-- Model of `IPPClient.get_printer_attributes`: every exception is caught and the
empty dictionary returned. -/
def get_printer_attributes (post : List Nat → List Nat → Nat → HttpOutcome)
    (printer_url : List Nat) (timeout : Nat) : Dict :=
  match get_printer_attributes_try post printer_url timeout with
  | .ok d => d
  | .error _ => []

/-- Model of `IPPClient.get_ink_levels`: fetch the attributes (itself fail-soft),
then extract cartridges, with the outer `except` returning `[]`. -/
def get_ink_levels (post : List Nat → List Nat → Nat → HttpOutcome)
    (printer_url : List Nat) (timeout : Nat) : List Cartridge :=
  get_ink_levels_core (get_printer_attributes post printer_url timeout)

/-- The public entry point `get_ink_info_via_ipp(printer_url, timeout)`;
its own `try`/`except` wraps a body that already never raises. -/
def get_ink_info_via_ipp (post : List Nat → List Nat → Nat → HttpOutcome)
    (printer_url : List Nat) (timeout : Nat) : List Cartridge :=
  get_ink_levels post printer_url timeout

/-- Claim C9: for every fixed operation id and printer URI string, two calls
to the request encoder produce byte-identical output — the encoder is a
deterministic function of its inputs, with no timestamps or randomness, and
the request id field (bytes 4..7 of the request) is the constant 1. -/
theorem C9_encoder_deterministic (operation_id : Nat) (printer_url : List Nat) :
    build_ipp_request operation_id printer_url =
      build_ipp_request operation_id printer_url ∧
    ∀ req, build_ipp_request operation_id printer_url = some req →
      (req.drop 4).take 4 = [0, 0, 0, 1] := by
  refine ⟨rfl, ?_⟩
  intro req h
  simp only [build_ipp_request] at h
  cases hop : packH operation_id with
  | none => rw [hop] at h; cases h
  | some opid =>
    rw [hop] at h
    cases hul : packH (strB ("uri:") ++ printer_url).length with
    | none => rw [hul] at h; cases h
    | some ul =>
      rw [hul] at h
      simp only [packH] at hop
      split at hop
      · cases hop
        injection h with h
        subst h
        rfl
      · cases hop

/-- Claim C9 witness: the encoder applied at a concrete operation id and
URL yields request id bytes `[0, 0, 0, 1]`. -/
theorem C9_encoder_deterministic_witness :
    (((build_ipp_request 11 (strB ("a"))).getD []).drop 4).take 4 =
      [0, 0, 0, 1] :=
  (C9_encoder_deterministic 11 (strB ("a"))).2
    ((build_ipp_request 11 (strB ("a"))).getD []) rfl

/-- Claim C10: for every printer URL string starting with neither `ipp://`
nor `ipps://`, `get_printer_attributes` derives the HTTP POST target by
prepending the literal text `http://` to the URL unchanged. -/
theorem C10_plain_http_derivation (printer_url : List Nat)
    (h1 : (strB ("ipp://")).isPrefixOf printer_url = false)
    (h2 : (strB ("ipps://")).isPrefixOf printer_url = false) :
    deriveUrl printer_url = strB ("http://") ++ printer_url := by
  simp [deriveUrl, h1, h2]

/-- Claim C10 witness: a bare `host` URL is queried at `http://host`. -/
theorem C10_plain_http_derivation_witness :
    deriveUrl (strB ("192.168.0.9")) =
      strB ("http://") ++ strB ("192.168.0.9") :=
  C10_plain_http_derivation (strB ("192.168.0.9")) (by decide) (by decide)

/-- Claim C8: at an enum attribute (tag `0x35`), the decoder reads and
discards the 2-byte declared length field (arbitrary bytes `l1 l2` below)
and then reads exactly 4 bytes as a big-endian unsigned integer: the parse
continues at `tail`, i.e. the number of value bytes consumed is 4 and never
taken from the declared length field. -/
theorem C8_enum_fixed_width (f : Nat) (name : List Nat)
    (l1 l2 v1 v2 v3 v4 : Nat) (tail : List Nat) (attrs : Dict)
    (lastVal : Option PyVal) (hname : utf8Valid name = true)
    (hlen : name.length < 65536) :
    parseStep (f + 1)
      (53 :: (pack16 name.length ++
        (name ++ (l1 :: l2 :: v1 :: v2 :: v3 :: v4 :: tail))))
      false attrs lastVal =
    parseStep f tail false
      (dictInsert attrs name
        (PyVal.i (((v1 * 256 + v2) * 256 + v3) * 256 + v4)))
      (some (PyVal.i (((v1 * 256 + v2) * 256 + v3) * 256 + v4))) := by
  have harith : name.length / 256 % 256 * 256 + name.length % 256 =
      name.length := by omega
  simp only [pack16, List.cons_append, List.nil_append]
  simp only [parseStep, unpackH, unpackI]
  rw [harith]
  simp only [List.drop_succ_cons, List.drop_zero, List.take_left,
    List.drop_left, hname]
  norm_num

/-- Dropping the length of a leading block of known size. -/
theorem drop_of_length_eq (P X : List Nat) (n : Nat) (h : P.length = n) :
    (P ++ X).drop n = X := by
  subst h
  exact List.drop_left P X

/-- Claim C4 counterexample: for the caller-supplied URI `ipp://x` the
printer-uri attribute of the built request carries a length field of 11 and
the value bytes `uri:ipp://x` — not the 7 caller-supplied bytes `ipp://x`:
the encoder prepends the literal text `uri:`. -/
theorem C4_printer_uri_counterexample :
    ((((build_ipp_request 11 (strB ("ipp://x"))).getD []).drop 87).take 2 =
        [0, 11] ∧
      (((build_ipp_request 11 (strB ("ipp://x"))).getD []).drop 89).take 11 =
        strB ("uri:") ++ strB ("ipp://x")) ∧
    strB ("uri:") ++ strB ("ipp://x") ≠ strB ("ipp://x") := by
  decide

/-- Claim C4 (amended): the printer-uri attribute (tag `0x45`, name
`printer-uri`) of the built request carries a 2-byte length field encoding
`4 + |url|` followed by the value `uri:` ++ url — the caller-supplied URI
prefixed with the literal text `uri:`, which is never byte-for-byte equal
to the URI itself.  (Offsets: the fixed header before the length field is
87 bytes, so the value starts at offset 89.) -/
theorem C4_printer_uri_amended (printer_url req : List Nat)
    (h : build_ipp_request 11 printer_url = some req) :
    (req.drop 87).take 2 = pack16 (4 + printer_url.length) ∧
    (req.drop 89).take (4 + printer_url.length) =
      strB ("uri:") ++ printer_url ∧
    strB ("uri:") ++ printer_url ≠ printer_url := by
  have h4 : (strB ("uri:")).length = 4 := rfl
  have hu : (strB ("uri:") ++ printer_url).length = 4 + printer_url.length := by
    rw [List.length_append, h4]
  have hne : strB ("uri:") ++ printer_url ≠ printer_url := by
    intro he
    have hl := congrArg List.length he
    rw [hu] at hl
    omega
  simp only [build_ipp_request] at h
  rw [show packH 11 = some [0, 11] from rfl] at h
  simp only at h
  cases hul : packH (strB ("uri:") ++ printer_url).length with
  | none => rw [hul] at h; cases h
  | some ul =>
    rw [hul] at h
    simp only [packH, hu] at hul
    split at hul
    · cases hul
      simp only at h
      injection h with h
      subst h
      have hbig :
          ([2, 1] ++ [0, 11] ++ [0, 0, 0, 1] ++ [1] ++ charsetB ++ languageB ++
            ([69, 0, 11] ++ strB ("printer-uri") ++ [0] ++
              pack16 (4 + printer_url.length) ++
              (strB ("uri:") ++ printer_url)) ++ requestedB ++ [3]) =
          ([2, 1] ++ [0, 11] ++ [0, 0, 0, 1] ++ [1] ++ charsetB ++ languageB ++
            ([69, 0, 11] ++ strB ("printer-uri") ++ [0])) ++
            (pack16 (4 + printer_url.length) ++
              ((strB ("uri:") ++ printer_url) ++ (requestedB ++ [3]))) := by
        simp [List.append_assoc]
      have hpre :
          ([2, 1] ++ [0, 11] ++ [0, 0, 0, 1] ++ [1] ++ charsetB ++ languageB ++
            ([69, 0, 11] ++ strB ("printer-uri") ++ [0])).length = 87 := by
        decide
      refine ⟨?_, ?_, hne⟩
      · rw [hbig, drop_of_length_eq _ _ 87 hpre]
        rfl
      · rw [hbig]
        rw [show
          (([2, 1] ++ [0, 11] ++ [0, 0, 0, 1] ++ [1] ++ charsetB ++ languageB ++
            ([69, 0, 11] ++ strB ("printer-uri") ++ [0])) ++
            (pack16 (4 + printer_url.length) ++
              ((strB ("uri:") ++ printer_url) ++ (requestedB ++ [3])))) =
          (([2, 1] ++ [0, 11] ++ [0, 0, 0, 1] ++ [1] ++ charsetB ++ languageB ++
            ([69, 0, 11] ++ strB ("printer-uri") ++ [0])) ++
            pack16 (4 + printer_url.length)) ++
            ((strB ("uri:") ++ printer_url) ++ (requestedB ++ [3]))
          from by simp [List.append_assoc]]
        have hpre2 :
            (([2, 1] ++ [0, 11] ++ [0, 0, 0, 1] ++ [1] ++ charsetB ++
              languageB ++ ([69, 0, 11] ++ strB ("printer-uri") ++ [0])) ++
              pack16 (4 + printer_url.length)).length = 89 := by
          rw [List.length_append, hpre]
          rfl
        rw [drop_of_length_eq _ _ 89 hpre2, ← hu, List.take_left]
    · cases hul

/-- Claim C4 amended witness: instantiated at the URI `ipp://x`. -/
theorem C4_printer_uri_amended_witness :
    ((((build_ipp_request 11 (strB ("ipp://x"))).getD []).drop 87).take 2 =
        pack16 (4 + (strB ("ipp://x")).length) ∧
      (((build_ipp_request 11 (strB ("ipp://x"))).getD []).drop 89).take
          (4 + (strB ("ipp://x")).length) =
        strB ("uri:") ++ strB ("ipp://x") ∧
      strB ("uri:") ++ strB ("ipp://x") ≠ strB ("ipp://x")) :=
  C4_printer_uri_amended (strB ("ipp://x"))
    ((build_ipp_request 11 (strB ("ipp://x"))).getD []) rfl

/-- Claim C5 counterexample: a buffer whose first attribute group (name `a`,
value `x`) is closed by an end-of-attributes byte `0x03`, followed by a
second group containing attribute `b`.  The decoder inserts `b` into the
mapping even though its bytes lie after the first end-of-attributes marker,
so decoding does not stop there. -/
theorem C5_first_group_counterexample :
    parse_ipp_response
      ([0, 0, 0, 0, 0, 0, 0, 0] ++ [1] ++ [33, 0, 1, 97, 0, 1, 120] ++ [3] ++
        [1] ++ [33, 0, 1, 98, 0, 1, 121] ++ [3]) =
      [([97], PyVal.s [120]), ([98], PyVal.s [121])] ∧
    ([([97], PyVal.s [120]), ([98], PyVal.s [121])] : Dict) ≠ [] := by
  decide

/-- Claim C5 (amended): decoding stops at an end-of-attributes byte `0x03`
only when it is read in group-tag position — the bytes after it are then
never visited, whatever they are; a `0x03` read in attribute-tag position
merely ends the current group's attribute loop, after which the decoder
reads the next byte as a group tag and keeps decoding, so attributes after
the first end-of-attributes marker can still be visited and inserted. -/
theorem C5_group_scan_amended (f : Nat) (rest : List Nat) (attrs : Dict)
    (lastVal : Option PyVal) :
    parseStep (f + 1) (3 :: rest) true attrs lastVal = .ok attrs ∧
    parseStep (f + 1) (3 :: rest) false attrs lastVal =
      parseStep f rest true attrs lastVal := by
  constructor <;> rfl

/-- Claim C2 counterexample: a buffer truncated mid-value — the length
field of the text attribute `a` claims 5 bytes but only one byte (`x`)
remains.  Python's slice is silently short and decodes, so the decoder
returns a mapping containing the truncated value, not the empty mapping. -/
theorem C2_truncated_value_counterexample :
    parse_ipp_response
      ([0, 0, 0, 0, 0, 0, 0, 0] ++ [1] ++ [33, 0, 1, 97, 0, 5, 120]) =
      [([97], PyVal.s [120])] ∧
    ([([97], PyVal.s [120])] : Dict) ≠ [] := by
  decide

/-- Claim C2 (amended): the decoder never raises: when the parse body ends
in an exception the caught result is the empty mapping (partial results
discarded), and otherwise the parsed mapping is returned unchanged.  A
truncation only raises when a fixed-width read runs short (e.g. the 4-byte
enum value below, yielding the empty mapping); a truncated variable-length
text value whose remaining bytes still decode is kept, truncated, in the
returned mapping. -/
theorem C2_truncated_value_amended :
    (∀ buf, parse_body buf = .error () → parse_ipp_response buf = []) ∧
    (∀ buf d, parse_body buf = .ok d → parse_ipp_response buf = d) ∧
    parse_ipp_response
      ([0, 0, 0, 0, 0, 0, 0, 0] ++ [1] ++ [53, 0, 1, 97, 0, 4, 1, 2]) = [] ∧
    parse_ipp_response
      ([0, 0, 0, 0, 0, 0, 0, 0] ++ [1] ++ [33, 0, 1, 97, 0, 9, 104, 105]) =
      [([97], PyVal.s [104, 105])] := by
  refine ⟨?_, ?_, by decide, by decide⟩
  · intro buf h
    simp [parse_ipp_response, h]
  · intro buf d h
    simp [parse_ipp_response, h]

/-- Claim C2 amended witness: an enum attribute truncated inside its 4-byte
value raises internally and the caught result is the empty mapping. -/
theorem C2_truncated_value_amended_witness :
    parse_ipp_response ([0, 0, 0, 0, 0, 0, 0, 0] ++ [1] ++ [53, 0, 1, 97]) =
      [] :=
  C2_truncated_value_amended.1
    ([0, 0, 0, 0, 0, 0, 0, 0] ++ [1] ++ [53, 0, 1, 97]) rfl

/-- Claim C3: evaluation of the decoder at buffers with an unknown tag
(`0x30`), exhibiting the unknown-tag slip of the source: after skipping the
payload the source still runs `attributes[name] = value`.  When the unknown
tag is the first attribute, `value` is unbound (`UnboundLocalError`), the
blanket `except` fires and the whole parse returns the empty mapping — the
subsequent recognized attribute `a` is *not* decoded.  When a recognized
attribute precedes it, the skipped attribute's name `b` is inserted bound
to the *previous* attribute's value instead of being left uninterpreted. -/
theorem C3_unknown_tag_evaluation :
    parse_ipp_response
      ([0, 0, 0, 0, 0, 0, 0, 0] ++
        [1, 48, 0, 1, 98, 0, 2, 9, 9, 33, 0, 1, 97, 0, 1, 120, 3]) = [] ∧
    parse_ipp_response
      ([0, 0, 0, 0, 0, 0, 0, 0] ++
        [1, 33, 0, 1, 97, 0, 1, 120, 48, 0, 1, 98, 0, 2, 9, 9, 3]) =
      [([97], PyVal.s [120]), ([98], PyVal.s [120])] := by
  decide

/-- Claim C6 counterexample: a decoded mapping with no `marker-colors`
attribute but `marker-levels = "50"`.  Python's `''.split(',')` is `['']`,
so the color loop runs once and `get_ink_levels` returns one record (with
empty color and level 50) — not the empty sequence the claim states. -/
theorem C6_missing_colors_counterexample :
    get_ink_levels_core [(strB ("marker-levels"), PyVal.s (strB ("50")))] =
      [{ color := [], color_name := [], level := 50, status := statusOk,
         name := some (Tok.s []), type := some (Tok.s []) }] ∧
    get_ink_levels_core [(strB ("marker-levels"), PyVal.s (strB ("50")))] ≠
      [] := by
  decide

/-- Claim C6 (amended): when the `marker-colors` attribute is missing or
the empty string *and* the `marker-levels` attribute is also missing or the
empty string, `get_ink_levels` returns an empty sequence regardless of the
`marker-names` and `marker-types` attributes (the single empty color token
is skipped because `int('')` raises a caught `ValueError`). -/
theorem C6_missing_colors_amended (d : Dict)
    (hc : dictGet d (strB ("marker-colors")) = none ∨
      dictGet d (strB ("marker-colors")) = some (PyVal.s []))
    (hl : dictGet d (strB ("marker-levels")) = none ∨
      dictGet d (strB ("marker-levels")) = some (PyVal.s [])) :
    get_ink_levels_core d = [] := by
  unfold get_ink_levels_core get_ink_levels_try
  by_cases hd : d = []
  · simp [hd]
  · rw [if_neg hd]
    rcases hc with hc | hc <;> rcases hl with hl | hl <;>
      simp [hc, hl, normalizeVal, splitComma, seqToks, inkLoop, inkStep,
        seqLen, levelTok, pyInt, stripB, isSpaceB]

/-- Claim C6 amended witness: a mapping carrying only `marker-names`
(colors and levels both missing) yields the empty sequence. -/
theorem C6_missing_colors_amended_witness :
    get_ink_levels_core [(strB ("marker-names"), PyVal.s (strB ("X")))] =
      [] :=
  C6_missing_colors_amended
    [(strB ("marker-names"), PyVal.s (strB ("X")))] (Or.inl rfl) (Or.inl rfl)

/-- The clamp of `get_ink_levels` always lands in `[0, 100]`. -/
theorem clampLevel_bounds (n : Int) : 0 ≤ clampLevel n ∧ clampLevel n ≤ 100 := by
  unfold clampLevel
  exact ⟨le_max_left 0 _, max_le (by norm_num) (min_le_left 100 n)⟩

/-- Every record built by one loop iteration has a clamped level and a
status computed from that level. -/
theorem inkStep_ok_clamped (ml mn mt : SeqVal) (t : Tok) (i : Nat)
    (c : Cartridge) (h : inkStep ml mn mt t i = StepRes.ok c) :
    (0 ≤ c.level ∧ c.level ≤ 100) ∧ c.status = statusOf c.level := by
  unfold inkStep at h
  cases hml : seqLen ml with
  | none => simp only [hml] at h; cases h
  | some lml =>
    simp only [hml] at h
    cases hlv : (if i < lml then levelTok ml i else some 0) with
    | none => simp only [hlv] at h; cases h
    | some lv =>
      simp only [hlv] at h
      cases t with
      | i v => cases h
      | s col =>
        cases hmn : seqLen mn with
        | none => simp only [hmn] at h; cases h
        | some lmn =>
          simp only [hmn] at h
          cases hmt : seqLen mt with
          | none => simp only [hmt] at h; cases h
          | some lmt =>
            simp only [hmt] at h
            injection h with h
            rw [← h]
            exact ⟨clampLevel_bounds _, rfl⟩

/-- Loop invariant: every record in the loop's output is either from the
accumulator or satisfies the clamp/status property. -/
theorem inkLoop_mem_clamped (ml mn mt : SeqVal) (toks : List Tok) :
    ∀ (i : Nat) (acc res : List Cartridge) (c : Cartridge),
      inkLoop ml mn mt toks i acc = some res → c ∈ res →
      c ∈ acc ∨
        ((0 ≤ c.level ∧ c.level ≤ 100) ∧ c.status = statusOf c.level) := by
  induction toks with
  | nil =>
    intro i acc res c h hm
    simp only [inkLoop] at h
    injection h with h
    subst h
    exact Or.inl hm
  | cons t rest ih =>
    intro i acc res c h hm
    simp only [inkLoop] at h
    cases hs : inkStep ml mn mt t i with
    | fatal => rw [hs] at h; cases h
    | skip => rw [hs] at h; exact ih (i + 1) acc res c h hm
    | ok c0 =>
      rw [hs] at h
      rcases ih (i + 1) (acc ++ [c0]) res c h hm with hin | hok
      · rcases List.mem_append.mp hin with hin2 | hin2
        · exact Or.inl hin2
        · have hc : c = c0 := List.mem_singleton.mp hin2
          subst hc
          exact Or.inr (inkStep_ok_clamped ml mn mt t i c hs)
      · exact Or.inr hok

/-- Claim C7: every cartridge record produced by the extractor has its
level clamped into `[0, 100]` — out-of-range source levels included, as
`clampLevel 150 = 100` and `clampLevel (-5) = 0` — and its status is the
pure function of the clamped level: `< 10` empty, `< 20` warning, else
ok. -/
theorem C7_clamp_and_status (d : Dict) (c : Cartridge)
    (h : c ∈ get_ink_levels_core d) :
    ((0 ≤ c.level ∧ c.level ≤ 100) ∧
      c.status = (if c.level < 10 then statusEmpty
        else if c.level < 20 then statusWarning else statusOk)) ∧
    clampLevel 150 = 100 ∧ clampLevel (-5) = 0 := by
  refine ⟨?_, by decide, by decide⟩
  cases hit : get_ink_levels_try d with
  | error e =>
    have hc0 : get_ink_levels_core d = [] := by
      unfold get_ink_levels_core
      rw [hit]
    rw [hc0] at h
    cases h
  | ok cs =>
    have hc0 : get_ink_levels_core d = cs := by
      unfold get_ink_levels_core
      rw [hit]
    rw [hc0] at h
    simp only [get_ink_levels_try] at hit
    by_cases hd : d = []
    · rw [if_pos hd] at hit
      injection hit with hh
      subst hh
      cases h
    · rw [if_neg hd] at hit
      cases htk : seqToks (normalizeVal (dictGet d (strB ("marker-colors")))) with
      | none => simp only [htk] at hit; cases hit
      | some toks =>
        simp only [htk] at hit
        cases hlp : inkLoop (normalizeVal (dictGet d (strB ("marker-levels"))))
            (normalizeVal (dictGet d (strB ("marker-names"))))
            (normalizeVal (dictGet d (strB ("marker-types")))) toks 0 [] with
        | none => simp only [hlp] at hit; cases hit
        | some cs2 =>
          simp only [hlp] at hit
          injection hit with hh
          subst hh
          rcases inkLoop_mem_clamped _ _ _ toks 0 [] cs2 c hlp h with h0 | hok
          · cases h0
          · exact hok

/-- Claim C7 witness: for the mapping `marker-colors = "black"`,
`marker-levels = "150"` the produced record has level 100 (clamped) and
status ok. -/
theorem C7_clamp_and_status_witness :
    ((0 ≤ (100 : Int) ∧ (100 : Int) ≤ 100) ∧
      statusOk = (if (100 : Int) < 10 then statusEmpty
        else if (100 : Int) < 20 then statusWarning else statusOk)) ∧
    clampLevel 150 = 100 ∧ clampLevel (-5) = 0 :=
  C7_clamp_and_status
    [(strB ("marker-colors"), PyVal.s (strB ("black"))),
      (strB ("marker-levels"), PyVal.s (strB ("150")))]
    { color := strB ("black"),
      color_name := [233, 187, 145, 232, 137, 178], level := 100,
      status := statusOk, name := some (Tok.s []), type := some (Tok.s []) }
    (by decide)

/-- Claim C1: the public entry point `get_ink_info_via_ipp` never raises —
every Python exception along the pipeline is modelled explicitly and caught
— and it returns the empty sequence on any failure: an oversized request
(encode failure), a transport exception (DNS/connect/timeout), a non-200
HTTP status, or a decode failure (empty decoded mapping); cartridge records
are returned only on a 200 response, as the extraction of its decoded
attributes. -/
theorem C1_fail_soft (post : List Nat → List Nat → Nat → HttpOutcome)
    (printer_url : List Nat) (timeout : Nat) :
    (build_ipp_request 11 printer_url = none →
      get_ink_info_via_ipp post printer_url timeout = []) ∧
    (∀ req, build_ipp_request 11 printer_url = some req →
      post (deriveUrl printer_url) req timeout = HttpOutcome.exc →
      get_ink_info_via_ipp post printer_url timeout = []) ∧
    (∀ req s body, build_ipp_request 11 printer_url = some req →
      post (deriveUrl printer_url) req timeout = HttpOutcome.resp s body →
      s ≠ 200 → get_ink_info_via_ipp post printer_url timeout = []) ∧
    (∀ req body, build_ipp_request 11 printer_url = some req →
      post (deriveUrl printer_url) req timeout = HttpOutcome.resp 200 body →
      parse_ipp_response body = [] →
      get_ink_info_via_ipp post printer_url timeout = []) ∧
    (∀ req body, build_ipp_request 11 printer_url = some req →
      post (deriveUrl printer_url) req timeout = HttpOutcome.resp 200 body →
      get_ink_info_via_ipp post printer_url timeout =
        get_ink_levels_core (parse_ipp_response body)) := by
  refine ⟨?_, ?_, ?_, ?_, ?_⟩
  · intro hb
    simp [get_ink_info_via_ipp, get_ink_levels, get_printer_attributes,
      get_printer_attributes_try, hb, get_ink_levels_core,
      get_ink_levels_try]
  · intro req hb hp
    simp [get_ink_info_via_ipp, get_ink_levels, get_printer_attributes,
      get_printer_attributes_try, hb, hp, get_ink_levels_core,
      get_ink_levels_try]
  · intro req s body hb hp hs
    simp [get_ink_info_via_ipp, get_ink_levels, get_printer_attributes,
      get_printer_attributes_try, hb, hp, hs, get_ink_levels_core,
      get_ink_levels_try]
  · intro req body hb hp hdec
    simp [get_ink_info_via_ipp, get_ink_levels, get_printer_attributes,
      get_printer_attributes_try, hb, hp, hdec, get_ink_levels_core,
      get_ink_levels_try]
  · intro req body hb hp
    simp [get_ink_info_via_ipp, get_ink_levels, get_printer_attributes,
      get_printer_attributes_try, hb, hp]

/-- Claim C1 witness: a transport exception yields the empty sequence. -/
theorem C1_fail_soft_witness :
    get_ink_info_via_ipp (fun _ _ _ => HttpOutcome.exc) (strB ("p")) 10 =
      [] :=
  (C1_fail_soft (fun _ _ _ => HttpOutcome.exc) (strB ("p")) 10).2.1
    ((build_ipp_request 11 (strB ("p"))).getD []) rfl rfl

/-- Claim C8 witness: instantiated at name `a`, declared length bytes 9 9
(deliberately not 4) and value bytes 1 2 3 4: the decoded enum value is the
big-endian integer of exactly those 4 bytes. -/
theorem C8_enum_fixed_width_witness :
    parseStep 1 (53 :: (pack16 ([97] : List Nat).length ++
        ([97] ++ (9 :: 9 :: 1 :: 2 :: 3 :: 4 :: [])))) false [] none =
      parseStep 0 [] false
        (dictInsert [] [97]
          (PyVal.i (((1 * 256 + 2) * 256 + 3) * 256 + 4)))
        (some (PyVal.i (((1 * 256 + 2) * 256 + 3) * 256 + 4))) :=
  C8_enum_fixed_width 0 [97] 9 9 1 2 3 4 [] [] none (by decide) (by decide)

/-- Fuel irrelevance: any two fuels exceeding the remaining buffer length
give the same parse result, since every loop iteration consumes at least
one byte.  This justifies the `length + 1` fuel of `parse_body`: the
fuel-exhaustion branch of `parseStep` is never reached. -/
theorem parseStep_fuel_irrel : ∀ (f1 : Nat) (rest : List Nat) (f2 : Nat)
    (g : Bool) (attrs : Dict) (lv : Option PyVal),
    rest.length < f1 → rest.length < f2 →
    parseStep f1 rest g attrs lv = parseStep f2 rest g attrs lv := by
  intro f1
  induction f1 with
  | zero =>
    intro rest f2 g attrs lv h1 h2
    exact absurd h1 (by omega)
  | succ f ih =>
    intro rest f2 g attrs lv h1 h2
    cases rest with
    | nil =>
      cases f2 with
      | zero => exact absurd h2 (by omega)
      | succ f2b => rfl
    | cons b r =>
      cases f2 with
      | zero => exact absurd h2 (by omega)
      | succ f2b =>
        have hr : r.length < f := by
          simp only [List.length_cons] at h1
          omega
        have hr2 : r.length < f2b := by
          simp only [List.length_cons] at h2
          omega
        cases g with
        | true =>
          simp only [parseStep]
          by_cases hb : b = 3
          · rw [if_pos hb, if_pos hb]
          · rw [if_neg hb, if_neg hb]
            exact ih r f2b false attrs lv hr hr2
        | false =>
          simp only [parseStep]
          by_cases hb : b = 3
          · rw [if_pos hb, if_pos hb]
            exact ih r f2b true attrs lv hr hr2
          · rw [if_neg hb, if_neg hb]
            cases hu : unpackH r with
            | none => simp only [hu]
            | some nameLen =>
              simp only [hu]
              by_cases hv : utf8Valid ((r.drop 2).take nameLen) = true
              · rw [if_pos hv, if_pos hv]
                by_cases hb1 : b = 33 ∨ b = 35 ∨ b = 68
                · rw [if_pos hb1, if_pos hb1]
                  cases hu2 : unpackH ((r.drop 2).drop nameLen) with
                  | none => simp only [hu2]
                  | some valueLen =>
                    simp only [hu2]
                    by_cases hv2 : utf8Valid
                        ((((r.drop 2).drop nameLen).drop 2).take valueLen) =
                        true
                    · rw [if_pos hv2, if_pos hv2]
                      apply ih
                      · simp only [List.length_drop]
                        omega
                      · simp only [List.length_drop]
                        omega
                    · rw [if_neg hv2, if_neg hv2]
                · rw [if_neg hb1, if_neg hb1]
                  by_cases hb2 : b = 53
                  · rw [if_pos hb2, if_pos hb2]
                    cases hu2 : unpackH ((r.drop 2).drop nameLen) with
                    | none => simp only [hu2]
                    | some valueLen =>
                      simp only [hu2]
                      cases hu3 : unpackI (((r.drop 2).drop nameLen).drop 2) with
                      | none => simp only [hu3]
                      | some v =>
                        simp only [hu3]
                        apply ih
                        · simp only [List.length_drop]
                          omega
                        · simp only [List.length_drop]
                          omega
                  · rw [if_neg hb2, if_neg hb2]
                    by_cases hb3 : b = 34
                    · rw [if_pos hb3, if_pos hb3]
                      cases hu2 : unpackH ((r.drop 2).drop nameLen) with
                      | none => simp only [hu2]
                      | some valueLen =>
                        simp only [hu2]
                        apply ih
                        · simp only [List.length_drop]
                          omega
                        · simp only [List.length_drop]
                          omega
                    · rw [if_neg hb3, if_neg hb3]
                      cases hu2 : unpackH ((r.drop 2).drop nameLen) with
                      | none => simp only [hu2]
                      | some valueLen =>
                        simp only [hu2]
                        cases lv with
                        | none => rfl
                        | some v =>
                          apply ih
                          · simp only [List.length_drop]
                            omega
                          · simp only [List.length_drop]
                            omega
              · rw [if_neg hv, if_neg hv]
